import Mathlib

/-!
Verification of the pulsetrade-ai streaming indicator engine and analyzer.

Shallow embedding of `backend/app/indicators/rsi.py`, `volume.py`, `price.py`,
`backend/app/services/analyzer.py` and the bounded-queue sends in
`backend/app/main.py`.  Python floats are modelled as rationals; `round(x, n)`
is modelled as round-half-up at n decimal places (Python uses round-half-even
on binary floats, which differs only on exact two-decimal ties that are not
reachable in the claims below); epoch-millisecond timestamps are naturals and
`//` is natural division.
-/

/-- Python deque append with a maximum length `maxlen`: append at the back,
evicting from the front when the deque exceeds `maxlen` elements. -/
def dequeAppend (maxlen : ℕ) (xs : List α) (x : α) : List α :=
  let ys := xs ++ [x]
  ys.drop (ys.length - maxlen)

/-- Python `round(q, 2)` modelled as round-half-up at two decimals. -/
def round2 (q : ℚ) : ℚ := (round (q * 100) : ℤ) / 100

/-- Python `round(q, 8)` modelled as round-half-up at eight decimals. -/
def round8 (q : ℚ) : ℚ := (round (q * 100000000) : ℤ) / 100000000

/-- Assignment `dict[k] = v` on an association list: replace the first binding
of `k`, or append a new binding. -/
def insertA (xs : List (String × α)) (k : String) (v : α) : List (String × α) :=
  match xs with
  | [] => [(k, v)]
  | (k', v') :: rest => if k' = k then (k, v) :: rest else (k', v') :: insertA rest k v

/-! ## RSI (`backend/app/indicators/rsi.py`) -/

/-- `RSIResult` dataclass. -/
structure RSIResult where
  symbol : String
  rsi : ℚ
  is_overbought : Bool
  is_oversold : Bool
deriving DecidableEq

/-- `TimeBasedRSI` mutable state. -/
structure TimeBasedRSI where
  period : ℕ
  closes : List ℚ
  lastCandleTime : ℕ
  currentPrice : ℚ
deriving DecidableEq

/-- `TimeBasedRSI.__init__`. -/
def TimeBasedRSI.init (period : ℕ) : TimeBasedRSI :=
  { period := period, closes := [], lastCandleTime := 0, currentPrice := 0 }

/-- The close-to-close differences `closes[i] - closes[i-1]`. -/
def priceChanges (closes : List ℚ) : List ℚ :=
  List.zipWith (fun prev next => next - prev) closes closes.tail

/-- The `gains` list of `_calculate_rsi`. -/
def gainsOf (closes : List ℚ) : List ℚ :=
  (priceChanges closes).map (fun c => if 0 < c then c else 0)

/-- The `losses` list of `_calculate_rsi`. -/
def lossesOf (closes : List ℚ) : List ℚ :=
  (priceChanges closes).map (fun c => if 0 < c then 0 else |c|)

/-- Python `xs[-n:]`: the last `n` elements (everything when `n ≥ length`). -/
def lastN (n : ℕ) (xs : List ℚ) : List ℚ := xs.drop (xs.length - n)

/-- `avg_gain` of `_calculate_rsi`: mean of the last `period` gains, `0` on an
empty list. -/
def avgGain (period : ℕ) (closes : List ℚ) : ℚ :=
  let gs := lastN period (gainsOf closes)
  if gs.isEmpty then 0 else gs.sum / gs.length

/-- `avg_loss` of `_calculate_rsi`. -/
def avgLoss (period : ℕ) (closes : List ℚ) : ℚ :=
  let ls := lastN period (lossesOf closes)
  if ls.isEmpty then 0 else ls.sum / ls.length

/-- `TimeBasedRSI._calculate_rsi`. -/
def calcRsi (period : ℕ) (closes : List ℚ) : ℚ :=
  if closes.length < 2 then 50
  else
    let ag := avgGain period closes
    let al := avgLoss period closes
    if al = 0 then (if 0 < ag then 100 else 50)
    else if ag = 0 then 0
    else round2 (100 - 100 / (1 + ag / al))

/-- `TimeBasedRSI.add_tick`. -/
def TimeBasedRSI.addTick (st : TimeBasedRSI) (price : ℚ) (tsMs : ℕ) :
    TimeBasedRSI × Option ℚ :=
  let sec := tsMs / 1000
  let st := { st with currentPrice := price }
  if st.lastCandleTime = 0 then
    ({ st with lastCandleTime := sec,
               closes := dequeAppend (st.period + 1) st.closes price }, none)
  else if st.lastCandleTime < sec then
    let cs := dequeAppend (st.period + 1) st.closes price
    let st := { st with closes := cs, lastCandleTime := sec }
    if st.period < cs.length then (st, some (calcRsi st.period cs)) else (st, none)
  else
    ({ st with closes := if st.closes.isEmpty then st.closes
                         else st.closes.dropLast ++ [price] }, none)

/-- `RSICalculator` mutable state (per-symbol `TimeBasedRSI` instances). -/
structure RSICalculator where
  period : ℕ
  calculators : List (String × TimeBasedRSI)
deriving DecidableEq

/-- `RSICalculator.update` (with an explicit timestamp, as the analyzer calls it). -/
def RSICalculator.update (c : RSICalculator) (symbol : String) (price : ℚ)
    (tsMs : ℕ) : RSICalculator × Option RSIResult :=
  let st := (c.calculators.lookup symbol).getD (TimeBasedRSI.init c.period)
  let r := st.addTick price tsMs
  let c' : RSICalculator := { c with calculators := insertA c.calculators symbol r.1 }
  match r.2 with
  | some rsi => (c', some { symbol := symbol, rsi := rsi,
                            is_overbought := decide (70 < rsi),
                            is_oversold := decide (rsi < 30) })
  | none => (c', none)

/-- Feed a tick sequence `(symbol, price, event_ms)` through `RSICalculator.update`,
collecting the per-tick outputs. -/
def runRSI (c : RSICalculator) : List (String × ℚ × ℕ) →
    RSICalculator × List (Option RSIResult)
  | [] => (c, [])
  | (s, p, t) :: rest =>
    let r := c.update s p t
    let out := runRSI r.1 rest
    (out.1, r.2 :: out.2)

/-- The tick sequence of scenario A (claim C1). -/
def c1Ticks : List (String × ℚ × ℕ) :=
  [("E", 100, 1000000000000), ("E", 110, 1000000001100), ("E", 120, 1000000002200),
   ("E", 130, 1000000003300), ("E", 140, 1000000004400)]

/-- C1: with `period = 2`, feeding the five uptrend ticks of scenario A in
order, the last update returns a result with `rsi = 100.0` and
`overbought = true` (and `oversold = false`). -/
theorem c1_rsi_uptrend_overbought :
    (runRSI { period := 2, calculators := [] } c1Ticks).2.getLast?
      = some (some { symbol := "E", rsi := 100,
                     is_overbought := true, is_oversold := false }) := by
  norm_num [runRSI, c1Ticks, RSICalculator.update, TimeBasedRSI.addTick, TimeBasedRSI.init,
    insertA, dequeAppend, calcRsi, avgGain, avgLoss, gainsOf, lossesOf, lastN, priceChanges,
    List.lookup]

/-! ## Volume spike (`backend/app/indicators/volume.py`) -/

/-- `VolumeResult` dataclass. -/
structure VolumeResult where
  symbol : String
  current_volume : ℚ
  average_volume : ℚ
  spike_multiplier : ℚ
  is_spike : Bool
deriving DecidableEq

/-- `TimeBasedVolumeAggregator` mutable state. -/
structure TimeBasedVolumeAggregator where
  windowSize : ℕ
  spikeThreshold : ℚ
  windowVolumes : List ℚ
  currentWindowVolume : ℚ
  lastWindowTime : ℕ
deriving DecidableEq

/-- `TimeBasedVolumeAggregator.__init__`. -/
def TimeBasedVolumeAggregator.init (windowSize : ℕ) (spikeThreshold : ℚ) :
    TimeBasedVolumeAggregator :=
  { windowSize := windowSize, spikeThreshold := spikeThreshold,
    windowVolumes := [], currentWindowVolume := 0, lastWindowTime := 0 }

/-- The `avg_volume` of `_calculate_spike`: mean of the previous windows, or
the current volume itself when there are none. -/
def avgVolume (previous : List ℚ) (cur : ℚ) : ℚ :=
  if previous.isEmpty then cur else previous.sum / previous.length

/-- `TimeBasedVolumeAggregator._calculate_spike` (symbol is filled in by the
caller, as in the source). -/
def TimeBasedVolumeAggregator.calcSpike (st : TimeBasedVolumeAggregator)
    (cur : ℚ) : VolumeResult :=
  let avg := avgVolume st.windowVolumes.dropLast cur
  let mult := if 0 < avg then cur / avg else 0
  { symbol := "", current_volume := round8 cur, average_volume := round8 avg,
    spike_multiplier := round2 mult, is_spike := decide (st.spikeThreshold < mult) }

/-- `TimeBasedVolumeAggregator.add_tick`. -/
def TimeBasedVolumeAggregator.addTick (st : TimeBasedVolumeAggregator)
    (volume : ℚ) (tsMs : ℕ) : TimeBasedVolumeAggregator × Option VolumeResult :=
  let sec := tsMs / 1000
  if st.lastWindowTime = 0 then
    ({ st with lastWindowTime := sec, currentWindowVolume := volume }, none)
  else if st.lastWindowTime < sec then
    let completed := st.currentWindowVolume
    let wv := dequeAppend st.windowSize st.windowVolumes completed
    let st' := { st with windowVolumes := wv, currentWindowVolume := volume,
                         lastWindowTime := sec }
    if 5 ≤ wv.length then (st', some (st'.calcSpike completed)) else (st', none)
  else
    ({ st with currentWindowVolume := st.currentWindowVolume + volume }, none)

/-- `VolumeSpikeDetector` mutable state. -/
structure VolumeSpikeDetector where
  windowSize : ℕ
  spikeThreshold : ℚ
  aggregators : List (String × TimeBasedVolumeAggregator)
deriving DecidableEq

/-- `VolumeSpikeDetector.update` (with an explicit timestamp). -/
def VolumeSpikeDetector.update (d : VolumeSpikeDetector) (symbol : String)
    (volume : ℚ) (tsMs : ℕ) : VolumeSpikeDetector × Option VolumeResult :=
  let st := (d.aggregators.lookup symbol).getD
    (TimeBasedVolumeAggregator.init d.windowSize d.spikeThreshold)
  let r := st.addTick volume tsMs
  let d' : VolumeSpikeDetector := { d with aggregators := insertA d.aggregators symbol r.1 }
  match r.2 with
  | some res => (d', some { res with symbol := symbol })
  | none => (d', none)

/-- Feed a tick sequence `(symbol, volume, event_ms)` through
`VolumeSpikeDetector.update`, collecting the per-tick outputs. -/
def runVolume (d : VolumeSpikeDetector) : List (String × ℚ × ℕ) →
    VolumeSpikeDetector × List (Option VolumeResult)
  | [] => (d, [])
  | (s, v, t) :: rest =>
    let r := d.update s v t
    let out := runVolume r.1 rest
    (out.1, r.2 :: out.2)

/-- A tick sequence (non-negative volumes) whose final update completes a
1-second bucket of volume 5001 against four previous buckets of 1000, so the
unrounded multiplier is 5.001. -/
def c4Ticks : List (String × ℚ × ℕ) :=
  [("S", 1000, 1000), ("S", 1000, 2000), ("S", 1000, 3000), ("S", 1000, 4000),
   ("S", 1000, 5000), ("S", 4001, 5500), ("S", 1, 6000)]

/-! ## Helper lemmas -/

theorem round2_nonneg (q : ℚ) (h : 0 ≤ q) : 0 ≤ round2 q := by
  unfold round2
  have h1 : (0 : ℤ) ≤ round (q * 100) := by
    rw [round_eq]
    exact Int.floor_nonneg.2 (by linarith)
  have h2 : (0 : ℚ) ≤ (round (q * 100) : ℤ) := by exact_mod_cast h1
  positivity

theorem round2_mono {q q' : ℚ} (h : q ≤ q') : round2 q ≤ round2 q' := by
  unfold round2
  have h1 : round (q * 100) ≤ round (q' * 100) := by
    rw [round_eq, round_eq]
    exact Int.floor_le_floor (by linarith)
  have h2 : ((round (q * 100) : ℤ) : ℚ) ≤ ((round (q' * 100) : ℤ) : ℚ) := by exact_mod_cast h1
  linarith

theorem round2_le_100 (q : ℚ) (h : q ≤ 100) : round2 q ≤ 100 := by
  unfold round2
  have h1 : round (q * 100) < 10001 := by
    rw [round_eq]
    rw [Int.floor_lt]
    push_cast
    linarith
  have h2 : ((round (q * 100) : ℤ) : ℚ) ≤ 10000 := by exact_mod_cast Int.lt_add_one_iff.1 h1
  linarith

theorem lookup_mem {k : String} {v : α} : ∀ {xs : List (String × α)},
    xs.lookup k = some v → (k, v) ∈ xs := by
  intro xs
  induction xs with
  | nil => intro h; simp [List.lookup] at h
  | cons e rest ih =>
    intro h
    obtain ⟨k', v'⟩ := e
    rw [List.lookup] at h
    by_cases hk : k = k'
    · subst hk
      simp only [beq_self_eq_true] at h
      simp only [Option.some.injEq] at h
      subst h
      exact List.mem_cons_self _ _
    · have hbeq : (k == k') = false := beq_false_of_ne hk
      rw [hbeq] at h
      exact List.mem_cons_of_mem _ (ih h)

theorem mem_insertA {e : String × α} {k : String} {v : α} : ∀ {xs : List (String × α)},
    e ∈ insertA xs k v → e = (k, v) ∨ e ∈ xs := by
  intro xs
  induction xs with
  | nil => intro h; rw [insertA] at h; simp at h; exact Or.inl h
  | cons e' rest ih =>
    intro h
    obtain ⟨k', v'⟩ := e'
    rw [insertA] at h
    by_cases hk : k' = k
    · rw [if_pos hk] at h
      rcases List.mem_cons.1 h with h | h
      · exact Or.inl h
      · exact Or.inr (List.mem_cons_of_mem _ h)
    · rw [if_neg hk] at h
      rcases List.mem_cons.1 h with h | h
      · exact Or.inr (h ▸ List.mem_cons_self _ _)
      · rcases ih h with h' | h'
        · exact Or.inl h'
        · exact Or.inr (List.mem_cons_of_mem _ h')

theorem lookup_insertA_self (xs : List (String × α)) (k : String) (v : α) :
    (insertA xs k v).lookup k = some v := by
  induction xs with
  | nil => simp [insertA, List.lookup]
  | cons e rest ih =>
    obtain ⟨k', v'⟩ := e
    rw [insertA]
    by_cases hk : k' = k
    · rw [if_pos hk, List.lookup, beq_self_eq_true]
    · rw [if_neg hk, List.lookup]
      have hbeq : (k == k') = false := beq_false_of_ne (fun h => hk h.symm)
      rw [hbeq]
      exact ih

theorem lookup_insertA_ne (xs : List (String × α)) (k k₂ : String) (v : α)
    (hne : k₂ ≠ k) : (insertA xs k v).lookup k₂ = xs.lookup k₂ := by
  induction xs with
  | nil => simp [insertA, List.lookup, beq_false_of_ne hne]
  | cons e rest ih =>
    obtain ⟨k', v'⟩ := e
    rw [insertA]
    by_cases hk : k' = k
    · rw [if_pos hk, List.lookup, List.lookup, beq_false_of_ne hne, hk, beq_false_of_ne hne]
    · rw [if_neg hk, List.lookup, List.lookup]
      cases hbeq : (k₂ == k')
      · exact ih
      · rfl

/-! ## C4: volume-spike result bounds -/

theorem calcSpike_multiplier_nonneg (st : TimeBasedVolumeAggregator) (cur : ℚ)
    (hc : 0 ≤ cur) : 0 ≤ (st.calcSpike cur).spike_multiplier := by
  unfold TimeBasedVolumeAggregator.calcSpike
  apply round2_nonneg
  split
  · exact div_nonneg hc (le_of_lt (by assumption))
  · exact le_refl 0

theorem calcSpike_is_spike (st : TimeBasedVolumeAggregator) (cur : ℚ)
    (h : (st.calcSpike cur).is_spike = true) :
    round2 st.spikeThreshold ≤ (st.calcSpike cur).spike_multiplier := by
  unfold TimeBasedVolumeAggregator.calcSpike at h ⊢
  simp only [decide_eq_true_eq] at h
  exact round2_mono (le_of_lt h)

/-- Invariant of a reachable aggregator under non-negative volumes: the open
bucket's sum is non-negative and the threshold is the configured one. -/
def aggInv (th : ℚ) (a : TimeBasedVolumeAggregator) : Prop :=
  0 ≤ a.currentWindowVolume ∧ a.spikeThreshold = th

theorem addTick_fst_eq (th : ℚ) (a : TimeBasedVolumeAggregator) (v : ℚ) (t : ℕ) :
    aggInv th a → 0 ≤ v → aggInv th (a.addTick v t).1 := by
  intro ha hv
  simp only [TimeBasedVolumeAggregator.addTick]
  by_cases h1 : a.lastWindowTime = 0
  · simp only [h1, if_pos rfl]
    exact ⟨hv, ha.2⟩
  · rw [if_neg h1]
    by_cases h2 : a.lastWindowTime < t / 1000
    · rw [if_pos h2]
      by_cases h3 : 5 ≤ (dequeAppend a.windowSize a.windowVolumes a.currentWindowVolume).length
      · rw [if_pos h3]
        exact ⟨hv, ha.2⟩
      · rw [if_neg h3]
        exact ⟨hv, ha.2⟩
    · rw [if_neg h2]
      exact ⟨add_nonneg ha.1 hv, ha.2⟩

theorem addTick_some_shape (a : TimeBasedVolumeAggregator) (v : ℚ) (t : ℕ)
    (r : VolumeResult) (ha : aggInv th a) (h : (a.addTick v t).2 = some r) :
    ∃ (st : TimeBasedVolumeAggregator) (cur : ℚ),
      0 ≤ cur ∧ st.spikeThreshold = th ∧ r = st.calcSpike cur := by
  simp only [TimeBasedVolumeAggregator.addTick] at h
  by_cases h1 : a.lastWindowTime = 0
  · rw [if_pos h1] at h; exact Option.noConfusion h
  · rw [if_neg h1] at h
    by_cases h2 : a.lastWindowTime < t / 1000
    · rw [if_pos h2] at h
      by_cases h3 : 5 ≤ (dequeAppend a.windowSize a.windowVolumes a.currentWindowVolume).length
      · rw [if_pos h3] at h
        simp only [Option.some.injEq] at h
        exact ⟨{ windowSize := a.windowSize, spikeThreshold := a.spikeThreshold,
                 windowVolumes := dequeAppend a.windowSize a.windowVolumes a.currentWindowVolume,
                 currentWindowVolume := v, lastWindowTime := t / 1000 },
               a.currentWindowVolume, ha.1, ha.2, h.symm⟩
      · rw [if_neg h3] at h; exact Option.noConfusion h
    · rw [if_neg h2] at h; exact Option.noConfusion h

theorem addTick_some_cond (a : TimeBasedVolumeAggregator) (v : ℚ) (t : ℕ)
    (r : VolumeResult) (h : (a.addTick v t).2 = some r) :
    a.lastWindowTime < t / 1000 ∧ 5 ≤ (a.addTick v t).1.windowVolumes.length := by
  simp only [TimeBasedVolumeAggregator.addTick] at h ⊢
  by_cases h1 : a.lastWindowTime = 0
  · rw [if_pos h1] at h; exact Option.noConfusion h
  · rw [if_neg h1] at h ⊢
    by_cases h2 : a.lastWindowTime < t / 1000
    · rw [if_pos h2] at h ⊢
      by_cases h3 : 5 ≤ (dequeAppend a.windowSize a.windowVolumes a.currentWindowVolume).length
      · rw [if_pos h3] at h ⊢
        exact ⟨h2, h3⟩
      · rw [if_neg h3] at h; exact Option.noConfusion h
    · rw [if_neg h2] at h; exact Option.noConfusion h

/-- Invariant of a reachable detector state. -/
def detInv (th : ℚ) (d : VolumeSpikeDetector) : Prop :=
  d.spikeThreshold = th ∧ ∀ e ∈ d.aggregators, aggInv th e.2

theorem update_detInv (th : ℚ) (d : VolumeSpikeDetector) (s : String) (v : ℚ) (t : ℕ)
    (hd : detInv th d) (hv : 0 ≤ v) : detInv th (d.update s v t).1 := by
  have ha : aggInv th ((d.aggregators.lookup s).getD
      (TimeBasedVolumeAggregator.init d.windowSize d.spikeThreshold)) := by
    cases hl : d.aggregators.lookup s with
    | none =>
      simp only [hl, Option.getD]
      exact ⟨le_refl 0, hd.1⟩
    | some a =>
      simp only [hl, Option.getD]
      exact hd.2 _ (lookup_mem hl)
  have hstep := addTick_fst_eq th _ v t ha hv
  cases hr : (((d.aggregators.lookup s).getD
      (TimeBasedVolumeAggregator.init d.windowSize d.spikeThreshold)).addTick v t).2 with
  | none =>
    simp only [VolumeSpikeDetector.update, hr]
    refine ⟨hd.1, ?_⟩
    intro e he
    rcases mem_insertA he with h' | h'
    · rw [h']
      exact hstep
    · exact hd.2 _ h'
  | some res =>
    simp only [VolumeSpikeDetector.update, hr]
    refine ⟨hd.1, ?_⟩
    intro e he
    rcases mem_insertA he with h' | h'
    · rw [h']
      exact hstep
    · exact hd.2 _ h'

theorem update_some_shape (th : ℚ) (d : VolumeSpikeDetector) (s : String) (v : ℚ) (t : ℕ)
    (r : VolumeResult) (hd : detInv th d) (h : (d.update s v t).2 = some r) :
    ∃ (st : TimeBasedVolumeAggregator) (cur : ℚ) (s' : String),
      0 ≤ cur ∧ st.spikeThreshold = th ∧
      r = { st.calcSpike cur with symbol := s' } := by
  have ha : aggInv th ((d.aggregators.lookup s).getD
      (TimeBasedVolumeAggregator.init d.windowSize d.spikeThreshold)) := by
    cases hl : d.aggregators.lookup s with
    | none =>
      simp only [hl, Option.getD]
      exact ⟨le_refl 0, hd.1⟩
    | some a =>
      simp only [hl, Option.getD]
      exact hd.2 _ (lookup_mem hl)
  cases hr : (((d.aggregators.lookup s).getD
      (TimeBasedVolumeAggregator.init d.windowSize d.spikeThreshold)).addTick v t).2 with
  | none =>
    simp only [VolumeSpikeDetector.update, hr] at h
    exact Option.noConfusion h
  | some res =>
    simp only [VolumeSpikeDetector.update, hr, Option.some.injEq] at h
    obtain ⟨st, cur, hc, hth, hres⟩ := addTick_some_shape _ v t res ha hr
    exact ⟨st, cur, s, hc, hth, by rw [← h, hres]⟩

theorem runVolume_some_shape (th : ℚ) :
    ∀ (ticks : List (String × ℚ × ℕ)) (d : VolumeSpikeDetector) (r : VolumeResult),
    detInv th d → (∀ e ∈ ticks, 0 ≤ e.2.1) →
    some r ∈ (runVolume d ticks).2 →
    ∃ (st : TimeBasedVolumeAggregator) (cur : ℚ) (s' : String),
      0 ≤ cur ∧ st.spikeThreshold = th ∧
      r = { st.calcSpike cur with symbol := s' } := by
  intro ticks
  induction ticks with
  | nil =>
    intro d r _ _ h
    simp [runVolume] at h
  | cons tk rest ih =>
    intro d r hd hv h
    obtain ⟨s, v, t⟩ := tk
    rw [runVolume] at h
    rcases List.mem_cons.1 h with h' | h'
    · exact update_some_shape th d s v t r hd h'.symm
    · have hv0 : (0:ℚ) ≤ v := hv (s, v, t) (List.mem_cons_self _ _)
      exact ih (d.update s v t).1 r (update_detInv th d s v t hd hv0)
        (fun e he => hv e (List.mem_cons_of_mem _ he)) h'

/-- C4 (amended): for every tick sequence with non-negative volumes, every
result returned by the volume-spike detector has `spike_multiplier ≥ 0`, and
`is_spike = true` implies the unrounded multiplier is strictly greater than the
spike threshold, hence the reported (2-decimal-rounded) `spike_multiplier` is
at least the threshold rounded to two decimals (it can equal the threshold, so
"strictly greater" does not hold of the reported value); a result is returned
only when a tick arrives with a strictly greater 1-second bucket and at least
5 completed buckets exist. -/
theorem c4_volume_spike_bounds :
    (∀ (ws : ℕ) (th : ℚ) (ticks : List (String × ℚ × ℕ)) (r : VolumeResult),
      (∀ e ∈ ticks, 0 ≤ e.2.1) →
      some r ∈ (runVolume { windowSize := ws, spikeThreshold := th,
                            aggregators := [] } ticks).2 →
      0 ≤ r.spike_multiplier ∧ (r.is_spike = true → round2 th ≤ r.spike_multiplier))
  ∧ (∀ (a : TimeBasedVolumeAggregator) (v : ℚ) (t : ℕ) (r : VolumeResult),
      (a.addTick v t).2 = some r →
      a.lastWindowTime < t / 1000 ∧ 5 ≤ (a.addTick v t).1.windowVolumes.length) := by
  constructor
  · intro ws th ticks r hv hmem
    obtain ⟨st, cur, s', hc, hth, hr⟩ := runVolume_some_shape th ticks _ r
      ⟨rfl, by simp⟩ hv hmem
    subst hr
    refine ⟨calcSpike_multiplier_nonneg st cur hc, ?_⟩
    intro hs
    have h2 := calcSpike_is_spike st cur hs
    rw [hth] at h2
    exact h2
  · exact addTick_some_cond

/-- C4 counterexample: on `c4Ticks` (all volumes non-negative) the final
update returns a result with `is_spike = true` (the unrounded multiplier is
5.001 > 5) whose reported `spike_multiplier` is exactly 5, which is NOT
strictly greater than the threshold 5 — refuting the claim that `is_spike`
implies the reported `spike_multiplier` strictly exceeds the threshold. -/
theorem c4_counterexample :
    (runVolume { windowSize := 10, spikeThreshold := 5, aggregators := [] } c4Ticks).2.getLast?
      = some (some { symbol := "S", current_volume := 5001, average_volume := 1000,
                     spike_multiplier := 5, is_spike := true })
    ∧ ¬ ((5:ℚ) > 5) := by
  constructor
  · norm_num [runVolume, c4Ticks, VolumeSpikeDetector.update, TimeBasedVolumeAggregator.addTick,
      TimeBasedVolumeAggregator.init, TimeBasedVolumeAggregator.calcSpike, avgVolume, insertA,
      dequeAppend, round2, round8, round_eq, List.lookup]
  · norm_num

/-! ## C7: arithmetic edge cases -/

theorem calcRsi_loss_zero_gain_pos (p : ℕ) (closes : List ℚ)
    (h2 : ¬ closes.length < 2) (hal : avgLoss p closes = 0)
    (hag : 0 < avgGain p closes) : calcRsi p closes = 100 := by
  simp only [calcRsi, if_neg h2, hal, if_pos hag]
  simp

theorem calcRsi_loss_zero_gain_zero (p : ℕ) (closes : List ℚ)
    (h2 : ¬ closes.length < 2) (hal : avgLoss p closes = 0)
    (hag : ¬ 0 < avgGain p closes) : calcRsi p closes = 50 := by
  simp only [calcRsi, if_neg h2, hal, if_neg hag]
  simp

theorem calcRsi_gain_zero (p : ℕ) (closes : List ℚ)
    (h2 : ¬ closes.length < 2) (hal : 0 < avgLoss p closes)
    (hag : avgGain p closes = 0) : calcRsi p closes = 0 := by
  simp only [calcRsi, if_neg h2, if_neg (ne_of_gt hal), hag]
  simp

theorem calcSpike_avg_nonpos (st : TimeBasedVolumeAggregator) (cur : ℚ)
    (h : ¬ 0 < avgVolume st.windowVolumes.dropLast cur) :
    (st.calcSpike cur).spike_multiplier = 0 := by
  simp only [TimeBasedVolumeAggregator.calcSpike, if_neg h]
  simp [round2]

/-- C7: indicator arithmetic is total.  In `_calculate_rsi` (once at least two
closes exist), `avg_loss = 0` yields RSI 100 when `avg_gain > 0` and 50
otherwise, and `avg_gain = 0` with `avg_loss > 0` yields RSI 0; in
`_calculate_spike`, a non-positive average volume yields multiplier 0.  In
every remaining branch the divisor is non-zero by the branch condition, so no
division-by-zero escapes an update call. -/
theorem c7_division_edge_cases :
    (∀ (p : ℕ) (closes : List ℚ), ¬ closes.length < 2 → avgLoss p closes = 0 →
        calcRsi p closes = if 0 < avgGain p closes then 100 else 50)
  ∧ (∀ (p : ℕ) (closes : List ℚ), ¬ closes.length < 2 → 0 < avgLoss p closes →
        avgGain p closes = 0 → calcRsi p closes = 0)
  ∧ (∀ (st : TimeBasedVolumeAggregator) (cur : ℚ),
        ¬ 0 < avgVolume st.windowVolumes.dropLast cur →
        (st.calcSpike cur).spike_multiplier = 0) := by
  refine ⟨?_, calcRsi_gain_zero, calcSpike_avg_nonpos⟩
  intro p closes h2 hal
  by_cases hag : 0 < avgGain p closes
  · rw [if_pos hag]
    exact calcRsi_loss_zero_gain_pos p closes h2 hal hag
  · rw [if_neg hag]
    exact calcRsi_loss_zero_gain_zero p closes h2 hal hag

/-- Witness for C7 at concrete inputs: an uptrend pair, a downtrend pair, and
a fresh aggregator with a zero bucket. -/
theorem c7_division_edge_cases_witness :
    calcRsi 2 [100, 110] = 100 ∧ calcRsi 2 [110, 100] = 0 ∧
      ((TimeBasedVolumeAggregator.init 10 5).calcSpike 0).spike_multiplier = 0 := by
  refine ⟨?_, ?_, ?_⟩
  · have h := c7_division_edge_cases.1 2 [100, 110] (by norm_num)
      (by norm_num [avgLoss, lossesOf, priceChanges, lastN])
    rw [h, if_pos (by norm_num [avgGain, gainsOf, priceChanges, lastN])]
  · exact c7_division_edge_cases.2.1 2 [110, 100] (by norm_num)
      (by norm_num [avgLoss, lossesOf, priceChanges, lastN])
      (by norm_num [avgGain, gainsOf, priceChanges, lastN])
  · exact c7_division_edge_cases.2.2 (TimeBasedVolumeAggregator.init 10 5) 0
      (by norm_num [TimeBasedVolumeAggregator.init, avgVolume])

/-- Witness for C4: the amended theorem applied to the concrete `c4Ticks` run,
whose final update emits the spike result `("S", 5001, 1000, 5, true)`. -/
theorem c4_volume_spike_bounds_witness :
    (0:ℚ) ≤ ({ symbol := "S", current_volume := 5001, average_volume := 1000,
               spike_multiplier := 5, is_spike := true } : VolumeResult).spike_multiplier
    ∧ (({ symbol := "S", current_volume := 5001, average_volume := 1000,
          spike_multiplier := 5, is_spike := true } : VolumeResult).is_spike = true →
        round2 5 ≤ ({ symbol := "S", current_volume := 5001, average_volume := 1000,
                      spike_multiplier := 5, is_spike := true } : VolumeResult).spike_multiplier) :=
  c4_volume_spike_bounds.1 10 5 c4Ticks _
    (by norm_num [c4Ticks])
    (by norm_num [runVolume, c4Ticks, VolumeSpikeDetector.update,
      TimeBasedVolumeAggregator.addTick, TimeBasedVolumeAggregator.init,
      TimeBasedVolumeAggregator.calcSpike, avgVolume, insertA,
      dequeAppend, round2, round8, round_eq, List.lookup])

/-! ## C9: RSI result bounds -/

theorem avgGain_nonneg (p : ℕ) (closes : List ℚ) : 0 ≤ avgGain p closes := by
  simp only [avgGain]
  split
  · exact le_refl 0
  · apply div_nonneg
    · apply List.sum_nonneg
      intro x hx
      have hx' := List.mem_of_mem_drop hx
      obtain ⟨c, _, hc⟩ := List.mem_map.1 hx'
      rw [← hc]
      split
      · exact le_of_lt (by assumption)
      · exact le_refl 0
    · positivity

theorem avgLoss_nonneg (p : ℕ) (closes : List ℚ) : 0 ≤ avgLoss p closes := by
  simp only [avgLoss]
  split
  · exact le_refl 0
  · apply div_nonneg
    · apply List.sum_nonneg
      intro x hx
      have hx' := List.mem_of_mem_drop hx
      obtain ⟨c, _, hc⟩ := List.mem_map.1 hx'
      rw [← hc]
      split
      · exact le_refl 0
      · exact abs_nonneg c
    · positivity

theorem calcRsi_bounds (p : ℕ) (closes : List ℚ) :
    0 ≤ calcRsi p closes ∧ calcRsi p closes ≤ 100 := by
  simp only [calcRsi]
  by_cases h2 : closes.length < 2
  · rw [if_pos h2]
    norm_num
  · rw [if_neg h2]
    by_cases hal : avgLoss p closes = 0
    · rw [if_pos hal]
      by_cases hag : 0 < avgGain p closes
      · rw [if_pos hag]; norm_num
      · rw [if_neg hag]; norm_num
    · rw [if_neg hal]
      by_cases hag : avgGain p closes = 0
      · rw [if_pos hag]; norm_num
      · rw [if_neg hag]
        have hal' : 0 < avgLoss p closes :=
          lt_of_le_of_ne (avgLoss_nonneg p closes) (Ne.symm hal)
        have hag' : 0 < avgGain p closes :=
          lt_of_le_of_ne (avgGain_nonneg p closes) (Ne.symm hag)
        have hrs : 0 < avgGain p closes / avgLoss p closes := div_pos hag' hal'
        have h1 : (0:ℚ) < 100 / (1 + avgGain p closes / avgLoss p closes) := by positivity
        have h2' : 100 / (1 + avgGain p closes / avgLoss p closes) < 100 :=
          div_lt_self (by norm_num) (by linarith)
        constructor
        · exact round2_nonneg _ (by linarith)
        · exact round2_le_100 _ (by linarith)

theorem rsi_addTick_some (st : TimeBasedRSI) (p : ℚ) (t : ℕ) (rsi : ℚ)
    (h : (st.addTick p t).2 = some rsi) :
    ∃ (per : ℕ) (cs : List ℚ), rsi = calcRsi per cs := by
  simp only [TimeBasedRSI.addTick] at h
  by_cases h1 : st.lastCandleTime = 0
  · rw [if_pos h1] at h; exact Option.noConfusion h
  · rw [if_neg h1] at h
    by_cases h2 : st.lastCandleTime < t / 1000
    · rw [if_pos h2] at h
      by_cases h3 : st.period < (dequeAppend (st.period + 1) st.closes p).length
      · rw [if_pos h3] at h
        simp only [Option.some.injEq] at h
        exact ⟨st.period, dequeAppend (st.period + 1) st.closes p, h.symm⟩
      · rw [if_neg h3] at h; exact Option.noConfusion h
    · rw [if_neg h2] at h; exact Option.noConfusion h

theorem rsi_update_some (c : RSICalculator) (s : String) (p : ℚ) (t : ℕ)
    (r : RSIResult) (h : (c.update s p t).2 = some r) :
    ∃ (per : ℕ) (cs : List ℚ) (s' : String),
      r = { symbol := s', rsi := calcRsi per cs,
            is_overbought := decide (70 < calcRsi per cs),
            is_oversold := decide (calcRsi per cs < 30) } := by
  cases hr : (((c.calculators.lookup s).getD (TimeBasedRSI.init c.period)).addTick p t).2 with
  | none =>
    simp only [RSICalculator.update, hr] at h
    exact Option.noConfusion h
  | some rsi =>
    simp only [RSICalculator.update, hr, Option.some.injEq] at h
    obtain ⟨per, cs, hrsi⟩ := rsi_addTick_some _ p t rsi hr
    exact ⟨per, cs, s, by rw [← h, hrsi]⟩

theorem runRSI_some : ∀ (ticks : List (String × ℚ × ℕ)) (c : RSICalculator) (r : RSIResult),
    some r ∈ (runRSI c ticks).2 →
    ∃ (per : ℕ) (cs : List ℚ) (s' : String),
      r = { symbol := s', rsi := calcRsi per cs,
            is_overbought := decide (70 < calcRsi per cs),
            is_oversold := decide (calcRsi per cs < 30) } := by
  intro ticks
  induction ticks with
  | nil => intro c r h; simp [runRSI] at h
  | cons tk rest ih =>
    intro c r h
    obtain ⟨s, p, t⟩ := tk
    rw [runRSI] at h
    rcases List.mem_cons.1 h with h' | h'
    · exact rsi_update_some c s p t r h'.symm
    · exact ih _ r h'

/-- C9: every `RSIResult` emitted by the RSI detector, for any tick sequence
and any starting state, has `0 ≤ rsi ≤ 100`, and its `is_overbought` and
`is_oversold` flags are never both true. -/
theorem c9_rsi_result_bounds (c : RSICalculator) (ticks : List (String × ℚ × ℕ))
    (r : RSIResult) (h : some r ∈ (runRSI c ticks).2) :
    0 ≤ r.rsi ∧ r.rsi ≤ 100 ∧ ¬ (r.is_overbought = true ∧ r.is_oversold = true) := by
  obtain ⟨per, cs, s', hr⟩ := runRSI_some ticks c r h
  subst hr
  obtain ⟨hlo, hhi⟩ := calcRsi_bounds per cs
  refine ⟨hlo, hhi, ?_⟩
  intro hboth
  obtain ⟨hob, hos⟩ := hboth
  simp only [decide_eq_true_eq] at hob hos
  linarith

/-- Witness for C9: applied to the scenario-A run, whose third update emits
the result `("E", 100, true, false)`. -/
theorem c9_rsi_result_bounds_witness :
    (0:ℚ) ≤ ({ symbol := "E", rsi := 100, is_overbought := true,
               is_oversold := false } : RSIResult).rsi
    ∧ ({ symbol := "E", rsi := 100, is_overbought := true,
         is_oversold := false } : RSIResult).rsi ≤ 100
    ∧ ¬ (({ symbol := "E", rsi := 100, is_overbought := true,
            is_oversold := false } : RSIResult).is_overbought = true
         ∧ ({ symbol := "E", rsi := 100, is_overbought := true,
              is_oversold := false } : RSIResult).is_oversold = true) :=
  c9_rsi_result_bounds { period := 2, calculators := [] } c1Ticks _
    (by norm_num [runRSI, c1Ticks, RSICalculator.update, TimeBasedRSI.addTick,
      TimeBasedRSI.init, insertA, dequeAppend, calcRsi, avgGain, avgLoss, gainsOf,
      lossesOf, lastN, priceChanges, List.lookup])

/-! ## C10: bucket monotonicity and same-bucket updates -/

theorem rsi_lastCandle_mono (st : TimeBasedRSI) (p : ℚ) (t : ℕ) :
    st.lastCandleTime ≤ (st.addTick p t).1.lastCandleTime := by
  simp only [TimeBasedRSI.addTick]
  by_cases h1 : st.lastCandleTime = 0
  · rw [if_pos h1, h1]
    exact Nat.zero_le _
  · rw [if_neg h1]
    by_cases h2 : st.lastCandleTime < t / 1000
    · rw [if_pos h2]
      by_cases h3 : st.period < (dequeAppend (st.period + 1) st.closes p).length
      · rw [if_pos h3]
        exact le_of_lt h2
      · rw [if_neg h3]
        exact le_of_lt h2
    · rw [if_neg h2]

theorem vol_lastWindow_mono (a : TimeBasedVolumeAggregator) (v : ℚ) (t : ℕ) :
    a.lastWindowTime ≤ (a.addTick v t).1.lastWindowTime := by
  simp only [TimeBasedVolumeAggregator.addTick]
  by_cases h1 : a.lastWindowTime = 0
  · rw [if_pos h1, h1]
    exact Nat.zero_le _
  · rw [if_neg h1]
    by_cases h2 : a.lastWindowTime < t / 1000
    · rw [if_pos h2]
      by_cases h3 : 5 ≤ (dequeAppend a.windowSize a.windowVolumes a.currentWindowVolume).length
      · rw [if_pos h3]
        exact le_of_lt h2
      · rw [if_neg h3]
        exact le_of_lt h2
    · rw [if_neg h2]

theorem rsi_same_bucket (st : TimeBasedRSI) (p : ℚ) (t : ℕ)
    (h0 : st.lastCandleTime ≠ 0) (hle : t / 1000 ≤ st.lastCandleTime)
    (hne : st.closes ≠ []) :
    (st.addTick p t).2 = none
    ∧ (st.addTick p t).1.closes = st.closes.dropLast ++ [p]
    ∧ (st.addTick p t).1.lastCandleTime = st.lastCandleTime := by
  have h2 : ¬ st.lastCandleTime < t / 1000 := not_lt.2 hle
  simp [TimeBasedRSI.addTick, h0, h2, List.isEmpty_iff, hne]

theorem vol_same_bucket (a : TimeBasedVolumeAggregator) (v : ℚ) (t : ℕ)
    (h0 : a.lastWindowTime ≠ 0) (hle : t / 1000 ≤ a.lastWindowTime) :
    (a.addTick v t).2 = none
    ∧ (a.addTick v t).1.currentWindowVolume = a.currentWindowVolume + v
    ∧ (a.addTick v t).1.windowVolumes = a.windowVolumes
    ∧ (a.addTick v t).1.lastWindowTime = a.lastWindowTime := by
  have h2 : ¬ a.lastWindowTime < t / 1000 := not_lt.2 hle
  simp [TimeBasedVolumeAggregator.addTick, h0, h2]

/-- C10 (amended): in both detectors the recorded current-bucket second is
monotonically non-decreasing across updates; and once the detector has left
its initial state (recorded bucket non-zero — after any tick with
`event_ms ≥ 1000`), a tick whose 1-second bucket is not strictly greater than
the recorded bucket never completes a bucket and never yields a result: the
RSI detector overwrites the newest stored close (its `closes` being non-empty
then) and the volume aggregator adds the tick's volume to the current bucket.
(A tick in epoch second 0 instead re-runs the first-tick initialisation.) -/
theorem c10_same_bucket_behavior :
    (∀ (st : TimeBasedRSI) (p : ℚ) (t : ℕ),
        st.lastCandleTime ≤ (st.addTick p t).1.lastCandleTime)
  ∧ (∀ (a : TimeBasedVolumeAggregator) (v : ℚ) (t : ℕ),
        a.lastWindowTime ≤ (a.addTick v t).1.lastWindowTime)
  ∧ (∀ (st : TimeBasedRSI) (p : ℚ) (t : ℕ), st.lastCandleTime ≠ 0 →
        t / 1000 ≤ st.lastCandleTime → st.closes ≠ [] →
        (st.addTick p t).2 = none
        ∧ (st.addTick p t).1.closes = st.closes.dropLast ++ [p]
        ∧ (st.addTick p t).1.lastCandleTime = st.lastCandleTime)
  ∧ (∀ (a : TimeBasedVolumeAggregator) (v : ℚ) (t : ℕ), a.lastWindowTime ≠ 0 →
        t / 1000 ≤ a.lastWindowTime →
        (a.addTick v t).2 = none
        ∧ (a.addTick v t).1.currentWindowVolume = a.currentWindowVolume + v
        ∧ (a.addTick v t).1.windowVolumes = a.windowVolumes
        ∧ (a.addTick v t).1.lastWindowTime = a.lastWindowTime) :=
  ⟨rsi_lastCandle_mono, vol_lastWindow_mono, rsi_same_bucket, vol_same_bucket⟩

/-- C10 counterexample: two ticks in epoch second 0.  After `add_tick(1, 500)`
the recorded bucket is 0 and the stored closes are `[1]`; the tick
`add_tick(2, 600)` has bucket `600 / 1000 = 0`, not strictly greater than the
recorded bucket, yet the sentinel `last_candle_time == 0` branch APPENDS a new
close (giving `[1, 2]`) instead of overwriting the newest stored close (which
would give `[2]`) — refuting the unqualified claim. -/
theorem c10_counterexample :
    600 / 1000 ≤ ((TimeBasedRSI.init 14).addTick 1 500).1.lastCandleTime
    ∧ ((TimeBasedRSI.init 14).addTick 1 500).1.closes = [1]
    ∧ (((TimeBasedRSI.init 14).addTick 1 500).1.addTick 2 600).1.closes = [1, 2]
    ∧ ([1, 2] : List ℚ) ≠ ([1] : List ℚ).dropLast ++ [2] := by
  refine ⟨by decide, ?_, ?_, by decide⟩
  · norm_num [TimeBasedRSI.addTick, TimeBasedRSI.init, dequeAppend]
  · norm_num [TimeBasedRSI.addTick, TimeBasedRSI.init, dequeAppend]

/-- Witness for C10 at a concrete non-initial state: period-14 RSI state with
closes `[1]` in bucket 5, and a volume aggregator in bucket 5, each fed a tick
in the same bucket (`event_ms = 5500`). -/
theorem c10_same_bucket_behavior_witness :
    (({ period := 14, closes := [1], lastCandleTime := 5, currentPrice := 1 }
        : TimeBasedRSI).addTick 2 5500).2 = none
    ∧ (({ period := 14, closes := [1], lastCandleTime := 5, currentPrice := 1 }
        : TimeBasedRSI).addTick 2 5500).1.closes
      = ([1] : List ℚ).dropLast ++ [2]
    ∧ (({ windowSize := 30, spikeThreshold := 5, windowVolumes := [1],
          currentWindowVolume := 1, lastWindowTime := 5 }
        : TimeBasedVolumeAggregator).addTick 3 5500).2 = none
    ∧ (({ windowSize := 30, spikeThreshold := 5, windowVolumes := [1],
          currentWindowVolume := 1, lastWindowTime := 5 }
        : TimeBasedVolumeAggregator).addTick 3 5500).1.currentWindowVolume = 1 + 3 :=
  ⟨(c10_same_bucket_behavior.2.2.1 _ 2 5500 (by decide) (by decide) (by decide)).1,
   (c10_same_bucket_behavior.2.2.1 _ 2 5500 (by decide) (by decide) (by decide)).2.1,
   (c10_same_bucket_behavior.2.2.2 _ 3 5500 (by decide) (by decide)).1,
   (c10_same_bucket_behavior.2.2.2 _ 3 5500 (by decide) (by decide)).2.1⟩

/-! ## Price detectors (`backend/app/indicators/price.py`) -/

/-- `PriceChangeResult` dataclass. -/
structure PriceChangeResult where
  symbol : String
  change_percent : ℚ
  time_window_sec : ℕ
  is_whale_move : Bool
deriving DecidableEq

/-- `PriceChangeDetector` mutable state. -/
structure PriceChangeDetector where
  windowSeconds : ℕ
  thresholdPercent : ℚ
  history : List (String × List (ℕ × ℚ))
deriving DecidableEq

/-- The per-symbol history transformation of `PriceChangeDetector.update`:
append `(timestamp_ms, price)` and pop entries from the front while they are
older than `timestamp_ms - window_seconds * 1000` (the cutoff is taken in ℤ,
as Python ints can go negative). -/
def windowStep (w : ℕ) (hist : List (ℕ × ℚ)) (tsMs : ℕ) (price : ℚ) :
    List (ℕ × ℚ) :=
  (hist ++ [(tsMs, price)]).dropWhile (fun e => decide ((e.1 : ℤ) < (tsMs : ℤ) - (w : ℤ) * 1000))

/-- `PriceChangeDetector.update`. -/
def PriceChangeDetector.update (d : PriceChangeDetector) (symbol : String)
    (price : ℚ) (tsMs : ℕ) : PriceChangeDetector × Option PriceChangeResult :=
  let hist := (d.history.lookup symbol).getD []
  let hist' := windowStep d.windowSeconds hist tsMs price
  let d' : PriceChangeDetector := { d with history := insertA d.history symbol hist' }
  match hist' with
  | [] => (d', none)
  | oldest :: _ =>
    let changePct := (price - oldest.2) / oldest.2 * 100
    if d.thresholdPercent ≤ |changePct| then
      (d', some { symbol := symbol, change_percent := round2 changePct,
                  time_window_sec := d.windowSeconds, is_whale_move := true })
    else (d', none)

/-- Fold a `(timestamp_ms, price)` tick sequence through the per-symbol
history transformation. -/
def runWindow (w : ℕ) (hist : List (ℕ × ℚ)) (ticks : List (ℕ × ℚ)) :
    List (ℕ × ℚ) :=
  ticks.foldl (fun h e => windowStep w h e.1 e.2) hist

/-- Feed a tick sequence `(symbol, price, event_ms)` through
`PriceChangeDetector.update`, collecting the per-tick outputs. -/
def runPriceChange (d : PriceChangeDetector) : List (String × ℚ × ℕ) →
    PriceChangeDetector × List (Option PriceChangeResult)
  | [] => (d, [])
  | (s, p, t) :: rest =>
    let r := d.update s p t
    let out := runPriceChange r.1 rest
    (out.1, r.2 :: out.2)

/-- `LevelResult` dataclass. -/
structure LevelResult where
  symbol : String
  level : ℤ
  direction : String
  price : ℚ
deriving DecidableEq

/-- `LevelCrossDetector` mutable state (`levels` is stored sorted by the
constructor). -/
structure LevelCrossDetector where
  levels : List ℤ
  lastPrices : List (String × ℚ)
deriving DecidableEq

/-- `LevelCrossDetector.__init__`: sorts the configured levels. -/
def LevelCrossDetector.init (levels : List ℤ) : LevelCrossDetector :=
  { levels := levels.mergeSort (fun a b => a ≤ b), lastPrices := [] }

/-- The `for level in self.levels` loop of `LevelCrossDetector.update`:
return on the first level crossed UP (`last_price < L ≤ price`) or DOWN
(`last_price > L ≥ price`). -/
def checkLevels (symbol : String) (lastPrice price : ℚ) :
    List ℤ → Option LevelResult
  | [] => none
  | L :: rest =>
    if lastPrice < (L : ℚ) ∧ (L : ℚ) ≤ price then
      some { symbol := symbol, level := L, direction := "UP", price := price }
    else if (L : ℚ) < lastPrice ∧ price ≤ (L : ℚ) then
      some { symbol := symbol, level := L, direction := "DOWN", price := price }
    else checkLevels symbol lastPrice price rest

/-- `LevelCrossDetector.update`. -/
def LevelCrossDetector.update (d : LevelCrossDetector) (symbol : String)
    (price : ℚ) : LevelCrossDetector × Option LevelResult :=
  match d.lastPrices.lookup symbol with
  | none => ({ d with lastPrices := insertA d.lastPrices symbol price }, none)
  | some lastPrice =>
    ({ d with lastPrices := insertA d.lastPrices symbol price },
     checkLevels symbol lastPrice price d.levels)

/-- Modelled from the spec's words (§4.4): the result is for the FIRST level
`L` in ascending order satisfying the UP condition `last_price < L ≤ price`
or the DOWN condition `last_price > L ≥ price`, with the matching direction;
none when no level satisfies either. -/
def firstCrossSpec (symbol : String) (lastPrice price : ℚ) (levels : List ℤ) :
    Option LevelResult :=
  (levels.find? (fun (L : ℤ) => decide (lastPrice < (L : ℚ) ∧ (L : ℚ) ≤ price)
    || decide ((L : ℚ) < lastPrice ∧ price ≤ (L : ℚ)))).map
    (fun (L : ℤ) => if lastPrice < (L : ℚ) ∧ (L : ℚ) ≤ price then
        { symbol := symbol, level := L, direction := "UP", price := price }
      else { symbol := symbol, level := L, direction := "DOWN", price := price })

/-- Feed a `(symbol, price)` sequence through `LevelCrossDetector.update`,
collecting the per-tick outputs. -/
def runLevels (d : LevelCrossDetector) : List (String × ℚ) →
    LevelCrossDetector × List (Option LevelResult)
  | [] => (d, [])
  | (s, p) :: rest =>
    let r := d.update s p
    let out := runLevels r.1 rest
    (out.1, r.2 :: out.2)

/-! ## C5: level-cross detector -/

theorem checkLevels_eq_firstCrossSpec (s : String) (lp p : ℚ) :
    ∀ levels, checkLevels s lp p levels = firstCrossSpec s lp p levels := by
  intro levels
  induction levels with
  | nil => simp [checkLevels, firstCrossSpec]
  | cons L rest ih =>
    rw [checkLevels]
    by_cases hup : lp < (L : ℚ) ∧ (L : ℚ) ≤ p
    · rw [if_pos hup]
      simp [firstCrossSpec, List.find?_cons, hup]
    · by_cases hdn : (L : ℚ) < lp ∧ p ≤ (L : ℚ)
      · rw [if_neg hup, if_pos hdn]
        simp [firstCrossSpec, List.find?_cons, hup, hdn]
      · rw [if_neg hup, if_neg hdn, ih]
        simp [firstCrossSpec, List.find?_cons, hup, hdn]

/-- C5: each update of the level-cross detector stores the new price as the
symbol's `last_price`; a first update for a symbol returns none; a later
update returns exactly the spec's "first level in ascending order crossed UP
(`last_price < L ≤ price`) or DOWN (`last_price > L ≥ price`)", none if no
level is crossed (thus at most one result per tick, the return type being an
option).  Concretely, with levels `{69000}`: `(BTC, 68000)` then
`(BTC, 69005)` yields none then an UP cross at 69000, and `(BTC, 70000)` then
`(BTC, 68500)` yields none then a DOWN cross at 69000. -/
theorem c5_level_cross :
    (∀ (d : LevelCrossDetector) (s : String) (p : ℚ),
      ((d.update s p).1.lastPrices.lookup s = some p)
      ∧ ((d.update s p).2 = match d.lastPrices.lookup s with
          | none => none
          | some lastPrice => firstCrossSpec s lastPrice p d.levels))
  ∧ (runLevels (LevelCrossDetector.init [69000]) [("BTC", 68000), ("BTC", 69005)]).2
      = [none, some { symbol := "BTC", level := 69000, direction := "UP", price := 69005 }]
  ∧ (runLevels (LevelCrossDetector.init [69000]) [("BTC", 70000), ("BTC", 68500)]).2
      = [none, some { symbol := "BTC", level := 69000, direction := "DOWN", price := 68500 }] := by
  refine ⟨?_, ?_, ?_⟩
  · intro d s p
    cases hl : d.lastPrices.lookup s with
    | none =>
      simp only [LevelCrossDetector.update, hl]
      exact ⟨lookup_insertA_self _ _ _, trivial⟩
    | some lastPrice =>
      simp only [LevelCrossDetector.update, hl]
      exact ⟨lookup_insertA_self _ _ _, checkLevels_eq_firstCrossSpec s lastPrice p d.levels⟩
  · norm_num [runLevels, LevelCrossDetector.update, LevelCrossDetector.init, checkLevels,
      insertA, List.lookup, List.mergeSort]
  · norm_num [runLevels, LevelCrossDetector.update, LevelCrossDetector.init, checkLevels,
      insertA, List.lookup, List.mergeSort]

theorem sorted_dropWhile_cutoff (c : ℤ) :
    ∀ (l : List (ℕ × ℚ)), l.Pairwise (fun a b => a.1 ≤ b.1) →
    ∀ e ∈ l.dropWhile (fun e => decide ((e.1 : ℤ) < c)), c ≤ (e.1 : ℤ) := by
  intro l
  induction l with
  | nil => intro _ e he; simp [List.dropWhile] at he
  | cons a rest ih =>
    intro hp e he
    rw [List.dropWhile] at he
    by_cases hpa : (a.1 : ℤ) < c
    · simp only [decide_eq_true hpa] at he
      exact ih (List.pairwise_cons.1 hp).2 e he
    · simp only [decide_eq_false hpa] at he
      rcases List.mem_cons.1 he with h' | h'
      · rw [h']
        exact not_lt.1 hpa
      · have h1 : a.1 ≤ e.1 := (List.pairwise_cons.1 hp).1 e h'
        have h2 : c ≤ (a.1 : ℤ) := not_lt.1 hpa
        have h3 : (a.1 : ℤ) ≤ (e.1 : ℤ) := by exact_mod_cast h1
        linarith

theorem windowStep_mem_cutoff (w : ℕ) (hist : List (ℕ × ℚ)) (t : ℕ) (p : ℚ)
    (hs : hist.Pairwise (fun a b => a.1 ≤ b.1)) (hb : ∀ e ∈ hist, e.1 ≤ t) :
    ∀ e ∈ windowStep w hist t p, (t : ℤ) - (w : ℤ) * 1000 ≤ (e.1 : ℤ) := by
  apply sorted_dropWhile_cutoff
  rw [List.pairwise_append]
  refine ⟨hs, List.pairwise_singleton _ _, ?_⟩
  intro a ha b hb'
  rw [List.mem_singleton.1 hb']
  exact hb a ha

theorem windowStep_sublist (w : ℕ) (hist : List (ℕ × ℚ)) (t : ℕ) (p : ℚ) :
    List.Sublist (windowStep w hist t p) (hist ++ [(t, p)]) :=
  List.dropWhile_sublist _

theorem runWindow_cutoff (w : ℕ) :
    ∀ (ticks : List (ℕ × ℚ)) (hist : List (ℕ × ℚ)),
    (hist ++ ticks).Pairwise (fun a b => a.1 ≤ b.1) →
    ∀ tl, ticks.getLast? = some tl →
    ∀ e ∈ runWindow w hist ticks, (tl.1 : ℤ) - (w : ℤ) * 1000 ≤ (e.1 : ℤ) := by
  intro ticks
  induction ticks with
  | nil => intro hist _ tl htl; simp at htl
  | cons tk rest ih =>
    intro hist hp tl htl
    obtain ⟨t, p⟩ := tk
    have hstep : runWindow w hist ((t, p) :: rest) = runWindow w (windowStep w hist t p) rest := rfl
    rw [hstep]
    have hsub : List.Sublist (windowStep w hist t p ++ rest) (hist ++ ((t, p) :: rest)) := by
      have h1 : List.Sublist (windowStep w hist t p ++ rest) ((hist ++ [(t, p)]) ++ rest) :=
        List.Sublist.append_right (windowStep_sublist w hist t p) rest
      rw [List.append_assoc] at h1
      exact h1
    have hp' : (windowStep w hist t p ++ rest).Pairwise (fun a b => a.1 ≤ b.1) :=
      hp.sublist hsub
    cases rest with
    | nil =>
      simp only [List.getLast?_singleton, Option.some.injEq] at htl
      subst htl
      intro e he
      have hsplit := List.pairwise_append.1 hp
      have hs : hist.Pairwise (fun a b => a.1 ≤ b.1) := hsplit.1
      have hb : ∀ e' ∈ hist, e'.1 ≤ t := by
        intro e' he'
        exact hsplit.2.2 e' he' (t, p) (List.mem_cons_self _ _)
      exact windowStep_mem_cutoff w hist t p hs hb e he
    | cons r rs =>
      have htl' : (r :: rs).getLast? = some tl := by
        rw [List.getLast?_cons_cons] at htl
        exact htl
      exact ih (windowStep w hist t p) hp' tl htl'

/-- C3 (amended): for every tick sequence whose timestamps are non-decreasing
(per symbol), after the last update at `event_ms` the per-symbol history holds
no entry older than `event_ms - window_seconds * 1000` (stated over
`runWindow`, the per-symbol history transformation of
`PriceChangeDetector.update`).  The unqualified claim — for sequences with
out-of-order timestamps too — is refuted by `c3_counterexample`: `pop(0)`
only prunes from the front, so a stale entry hiding behind a newer front
entry survives. -/
theorem c3_price_window_cleanup (w : ℕ) (ticks : List (ℕ × ℚ)) (tl : ℕ × ℚ)
    (hmono : ticks.Chain' (fun a b => a.1 ≤ b.1))
    (hlast : ticks.getLast? = some tl) :
    ∀ e ∈ runWindow w [] ticks, (tl.1 : ℤ) - (w : ℤ) * 1000 ≤ (e.1 : ℤ) := by
  haveI : IsTrans (ℕ × ℚ) (fun a b => a.1 ≤ b.1) :=
    ⟨fun a b c h1 h2 => le_trans h1 h2⟩
  have hp := List.chain'_iff_pairwise.1 hmono
  exact runWindow_cutoff w ticks [] (by simpa using hp) tl hlast

/-- Witness for C3: a concrete monotone two-tick run with window 60 s. -/
theorem c3_price_window_cleanup_witness :
    (70000, (100 : ℚ)) ∈ runWindow 60 [] [(1000, 100), (70000, 100)]
    ∧ (((70000 : ℕ) : ℤ) - (60 : ℤ) * 1000 ≤ (((70000, (100 : ℚ)).1 : ℕ) : ℤ)) :=
  ⟨by decide,
   c3_price_window_cleanup 60 [(1000, 100), (70000, 100)] (70000, 100)
     (by norm_num [List.chain'_cons]) (by decide) (70000, 100) (by decide)⟩

/-- C3 counterexample: ticks at `event_ms` 1000000, 500, 1000000 (window
60 s).  After the third update (at `event_ms = 1000000`) the history for "A"
still contains the entry with timestamp 500, and `500 < 1000000 - 60000` —
refuting the claim for non-monotone tick sequences. -/
theorem c3_counterexample :
    (500, (100 : ℚ)) ∈ ((runPriceChange
        { windowSeconds := 60, thresholdPercent := 1, history := [] }
        [("A", 100, 1000000), ("A", 100, 500), ("A", 100, 1000000)]).1.history.lookup
          "A").getD []
    ∧ ((500 : ℤ) < (1000000 : ℤ) - 60 * 1000) := by
  constructor
  · norm_num [runPriceChange, PriceChangeDetector.update, windowStep, insertA, List.lookup,
      List.dropWhile]
  · decide

/-! ## Analyzer cooldown and audience gate (`backend/app/services/analyzer.py`) -/

/-- `COOLDOWN_SECONDS` (5 minutes per symbol per trigger type). -/
def COOLDOWN_SECONDS : ℚ := 300

/-- One `_maybe_trigger` invocation: the firing detector output's symbol and
trigger type, and the wall-clock `time.time()` value at the call. -/
structure Firing where
  symbol : String
  triggerType : String
  wallTime : ℚ
deriving DecidableEq

/-- The cooldown key `f"{trade.symbol}_{trigger_type}"`. -/
def keyOf (f : Firing) : String := f.symbol ++ "_" ++ f.triggerType

/-- The analyzer state touched by `_maybe_trigger`: the cooldown table, the
`alerts_triggered` / `alerts_skipped` counters, a counter of
`_generate_ai_analysis` invocations (the LLM call), and the log of
`AlertEvent`s dispatched to the hub via `on_alert` (recorded as the firing
that produced each). -/
structure AnalyzerState where
  cooldowns : List (String × ℚ)
  alertsTriggered : ℕ
  alertsSkipped : ℕ
  llmCalls : ℕ
  hubAlerts : List Firing
deriving DecidableEq

/-- The analyzer's starting state. -/
def AnalyzerState.initial : AnalyzerState :=
  { cooldowns := [], alertsTriggered := 0, alertsSkipped := 0,
    llmCalls := 0, hubAlerts := [] }

/-- `MarketAnalyzer._maybe_trigger`.  `gate` models the
`connection_check_callback`: `none` when unset, `some b` when set and
returning `b` (`len(subscribers) > 0` in the wiring); `on_alert` is modelled
as set (the alert is appended to `hubAlerts` whenever the cooldown passes,
before the gate is consulted, exactly as in the source). -/
def maybeTrigger (gate : Option Bool) (st : AnalyzerState) (f : Firing) :
    AnalyzerState :=
  let key := keyOf f
  let lastTime := (st.cooldowns.lookup key).getD 0
  if f.wallTime - lastTime < COOLDOWN_SECONDS then st
  else
    let st' : AnalyzerState :=
      { st with cooldowns := insertA st.cooldowns key f.wallTime,
                alertsTriggered := st.alertsTriggered + 1,
                hubAlerts := st.hubAlerts ++ [f] }
    match gate with
    | some hasAudience =>
      if hasAudience then { st' with llmCalls := st'.llmCalls + 1 }
      else { st' with alertsSkipped := st'.alertsSkipped + 1 }
    | none => { st' with llmCalls := st'.llmCalls + 1 }

/-- A run of the analyzer over a sequence of detector firings. -/
def runAnalyzer (gate : Option Bool) (st : AnalyzerState) (fs : List Firing) :
    AnalyzerState :=
  fs.foldl (maybeTrigger gate) st

theorem maybeTrigger_suppressed (g : Option Bool) (st : AnalyzerState) (f : Firing)
    (h : f.wallTime - ((st.cooldowns.lookup (keyOf f)).getD 0) < COOLDOWN_SECONDS) :
    maybeTrigger g st f = st := by
  simp [maybeTrigger, h]

theorem maybeTrigger_fired (g : Option Bool) (st : AnalyzerState) (f : Firing)
    (h : ¬ f.wallTime - ((st.cooldowns.lookup (keyOf f)).getD 0) < COOLDOWN_SECONDS) :
    (maybeTrigger g st f).hubAlerts = st.hubAlerts ++ [f]
    ∧ (maybeTrigger g st f).cooldowns = insertA st.cooldowns (keyOf f) f.wallTime := by
  simp only [maybeTrigger, if_neg h]
  cases g with
  | none => exact ⟨rfl, rfl⟩
  | some b => cases b <;> exact ⟨rfl, rfl⟩

theorem maybeTrigger_gate_false (st : AnalyzerState) (f : Firing)
    (h : ¬ f.wallTime - ((st.cooldowns.lookup (keyOf f)).getD 0) < COOLDOWN_SECONDS) :
    (maybeTrigger (some false) st f).llmCalls = st.llmCalls
    ∧ (maybeTrigger (some false) st f).alertsSkipped = st.alertsSkipped + 1 := by
  simp only [maybeTrigger, if_neg h]
  exact ⟨rfl, rfl⟩

theorem runAnalyzer_gate_false_llm :
    ∀ (fs : List Firing) (st : AnalyzerState),
    (runAnalyzer (some false) st fs).llmCalls = st.llmCalls := by
  intro fs
  induction fs with
  | nil => intro st; rfl
  | cons f rest ih =>
    intro st
    have hstep : (maybeTrigger (some false) st f).llmCalls = st.llmCalls := by
      by_cases h : f.wallTime - ((st.cooldowns.lookup (keyOf f)).getD 0) < COOLDOWN_SECONDS
      · rw [maybeTrigger_suppressed _ st f h]
      · exact (maybeTrigger_gate_false st f h).1
    calc (runAnalyzer (some false) st (f :: rest)).llmCalls
        = (runAnalyzer (some false) (maybeTrigger (some false) st f) rest).llmCalls := rfl
      _ = (maybeTrigger (some false) st f).llmCalls := ih _
      _ = st.llmCalls := hstep

theorem runAnalyzer_gate_false_skipped :
    ∀ (fs : List Firing) (st : AnalyzerState),
    st.alertsSkipped = st.hubAlerts.length →
    (runAnalyzer (some false) st fs).alertsSkipped
      = (runAnalyzer (some false) st fs).hubAlerts.length := by
  intro fs
  induction fs with
  | nil => intro st h; exact h
  | cons f rest ih =>
    intro st h
    apply ih
    by_cases hc : f.wallTime - ((st.cooldowns.lookup (keyOf f)).getD 0) < COOLDOWN_SECONDS
    · rw [maybeTrigger_suppressed _ st f hc]
      exact h
    · rw [(maybeTrigger_gate_false st f hc).2, (maybeTrigger_fired _ st f hc).1]
      simp [h]

theorem runAnalyzer_hub_gate_indep :
    ∀ (fs : List Firing) (g g' : Option Bool) (st st' : AnalyzerState),
    st.cooldowns = st'.cooldowns → st.hubAlerts = st'.hubAlerts →
    (runAnalyzer g st fs).hubAlerts = (runAnalyzer g' st' fs).hubAlerts := by
  intro fs
  induction fs with
  | nil => intro g g' st st' _ hh; exact hh
  | cons f rest ih =>
    intro g g' st st' hc hh
    apply ih
    · by_cases hcond : f.wallTime - ((st.cooldowns.lookup (keyOf f)).getD 0) < COOLDOWN_SECONDS
      · rw [maybeTrigger_suppressed _ st f hcond,
            maybeTrigger_suppressed _ st' f (by rw [← hc]; exact hcond)]
        exact hc
      · rw [(maybeTrigger_fired g st f hcond).2,
            (maybeTrigger_fired g' st' f (by rw [← hc]; exact hcond)).2, hc]
    · by_cases hcond : f.wallTime - ((st.cooldowns.lookup (keyOf f)).getD 0) < COOLDOWN_SECONDS
      · rw [maybeTrigger_suppressed _ st f hcond,
            maybeTrigger_suppressed _ st' f (by rw [← hc]; exact hcond)]
        exact hh
      · rw [(maybeTrigger_fired g st f hcond).1,
            (maybeTrigger_fired g' st' f (by rw [← hc]; exact hcond)).1, hh]

/-- C6: in every run in which the audience gate is wired and reports zero
registered subscribers at every firing (`gate = some false`), the LLM call is
never invoked, each firing that passes the cooldown increments the skipped
counter (so the skipped counter equals the number of dispatched alerts), and
the `AlertEvent` dispatch to the hub is unaffected by the gate's verdict —
the alert is dispatched before the gate is consulted. -/
theorem c6_audience_gate (fs : List Firing) :
    (runAnalyzer (some false) AnalyzerState.initial fs).llmCalls = 0
    ∧ (runAnalyzer (some false) AnalyzerState.initial fs).alertsSkipped
        = (runAnalyzer (some false) AnalyzerState.initial fs).hubAlerts.length
    ∧ ∀ g, (runAnalyzer g AnalyzerState.initial fs).hubAlerts
        = (runAnalyzer (some false) AnalyzerState.initial fs).hubAlerts :=
  ⟨runAnalyzer_gate_false_llm fs AnalyzerState.initial,
   runAnalyzer_gate_false_skipped fs AnalyzerState.initial rfl,
   fun g => runAnalyzer_hub_gate_indep fs g (some false)
     AnalyzerState.initial AnalyzerState.initial rfl rfl⟩

/-- Invariant: for every cooldown key, the hub alerts with that key are
pairwise at least `COOLDOWN_SECONDS` apart in wall-clock time, and all of
them are no later than the key's recorded cooldown time. -/
def cooldownInv (st : AnalyzerState) : Prop :=
  ∀ k : String,
    ((st.hubAlerts.filter (fun f => keyOf f == k)).Pairwise
      (fun a b => a.wallTime + COOLDOWN_SECONDS ≤ b.wallTime))
    ∧ ∀ f ∈ st.hubAlerts.filter (fun f => keyOf f == k),
        f.wallTime ≤ (st.cooldowns.lookup k).getD 0

theorem maybeTrigger_cooldownInv (g : Option Bool) (st : AnalyzerState)
    (f : Firing) (hinv : cooldownInv st) : cooldownInv (maybeTrigger g st f) := by
  by_cases hcond : f.wallTime - ((st.cooldowns.lookup (keyOf f)).getD 0) < COOLDOWN_SECONDS
  · rw [maybeTrigger_suppressed g st f hcond]
    exact hinv
  · have hfired := maybeTrigger_fired g st f hcond
    have hgap : (st.cooldowns.lookup (keyOf f)).getD 0 + COOLDOWN_SECONDS ≤ f.wallTime := by
      have := not_lt.1 hcond
      linarith
    intro k
    rw [hfired.1, hfired.2, List.filter_append]
    by_cases hk : keyOf f = k
    · subst hk
      have hfk : ([f].filter (fun x => keyOf x == keyOf f)) = [f] := by simp
      rw [hfk, lookup_insertA_self]
      constructor
      · rw [List.pairwise_append]
        refine ⟨(hinv (keyOf f)).1, List.pairwise_singleton _ _, ?_⟩
        intro a ha b hb
        rw [List.mem_singleton.1 hb]
        have hale : a.wallTime ≤ (st.cooldowns.lookup (keyOf f)).getD 0 :=
          (hinv (keyOf f)).2 a ha
        linarith
      · intro x hx
        rcases List.mem_append.1 hx with hx' | hx'
        · have hale : x.wallTime ≤ (st.cooldowns.lookup (keyOf f)).getD 0 :=
            (hinv (keyOf f)).2 x hx'
          have hpos : (0:ℚ) < COOLDOWN_SECONDS := by norm_num [COOLDOWN_SECONDS]
          simp only [Option.getD_some]
          linarith
        · rw [List.mem_singleton.1 hx']
          simp
    · have hfk : ([f].filter (fun x => keyOf x == k)) = [] := by
        simp [beq_false_of_ne hk]
      rw [hfk, List.append_nil, lookup_insertA_ne _ _ _ _ (fun h => hk h.symm)]
      exact hinv k

theorem runAnalyzer_cooldownInv (g : Option Bool) :
    ∀ (fs : List Firing) (st : AnalyzerState),
    cooldownInv st → cooldownInv (runAnalyzer g st fs) := by
  intro fs
  induction fs with
  | nil => intro st h; exact h
  | cons f rest ih =>
    intro st h
    exact ih _ (maybeTrigger_cooldownInv g st f h)

theorem cooldownInv_initial : cooldownInv AnalyzerState.initial := by
  intro k
  constructor
  · simp [AnalyzerState.initial]
  · intro f hf
    simp [AnalyzerState.initial] at hf

theorem filter_pair_sublist (l : List Firing) (s tr : String) :
    List.Sublist
      (l.filter (fun f => f.symbol == s && f.triggerType == tr))
      (l.filter (fun f => keyOf f == (s ++ "_" ++ tr))) := by
  apply List.monotone_filter_right
  intro f hf
  simp only [Bool.and_eq_true, beq_iff_eq] at hf
  simp [keyOf, hf.1, hf.2]

/-- C2: for every run of the analyzer (any gate wiring) and every pair
(symbol, trigger type), the wall-clock gaps between consecutive AlertEvents
dispatched to the hub for that pair are at least `COOLDOWN_SECONDS` (= 300);
in particular two RSI_HIGH firings for the same symbol 10 seconds apart
produce exactly one AlertEvent. -/
theorem c2_cooldown_gap :
    (∀ (g : Option Bool) (fs : List Firing) (s tr : String),
      ((runAnalyzer g AnalyzerState.initial fs).hubAlerts.filter
          (fun f => f.symbol == s && f.triggerType == tr)).Chain'
        (fun a b => a.wallTime + COOLDOWN_SECONDS ≤ b.wallTime))
  ∧ (runAnalyzer (some true) AnalyzerState.initial
      [{ symbol := "E", triggerType := "RSI_HIGH", wallTime := 1000000 },
       { symbol := "E", triggerType := "RSI_HIGH", wallTime := 1000010 }]).hubAlerts.length
      = 1 := by
  constructor
  · intro g fs s tr
    have hinv := runAnalyzer_cooldownInv g fs AnalyzerState.initial cooldownInv_initial
    have hpw := (hinv (s ++ "_" ++ tr)).1
    exact ((hpw.sublist (filter_pair_sublist _ s tr))).chain'
  · norm_num [runAnalyzer, maybeTrigger, keyOf, insertA, List.lookup,
      COOLDOWN_SECONDS, AnalyzerState.initial]

/-! ## Bounded-queue sends (`backend/app/main.py`) -/

/-- `queue.put_nowait(x)` wrapped in `except asyncio.QueueFull`: when the
queue already holds `cap` items the newest item is dropped and the handler
body runs (`pass` for the tick queue, a log line for the alert queue —
neither mutates any state), leaving the queue unchanged; otherwise the item
is appended. -/
def putNowaitDrop (cap : ℕ) (q : List α) (x : α) : List α :=
  if cap ≤ q.length then q else q ++ [x]

/-- The trade/tick queue send (`tick_queue`, capacity 1000,
`mock_tick_generator`). -/
def tradeQueuePut (q : List α) (x : α) : List α := putNowaitDrop 1000 q x

/-- The alert queue send (`alert_queue`, capacity 10, `processing_worker`). -/
def alertQueuePut (q : List α) (x : α) : List α := putNowaitDrop 10 q x

/-- C8 (amended): a send to a full bounded channel drops the newest item
without blocking (the send is a total function of the queue) and leaves the
queue contents unchanged; a send to a non-full channel appends the item.  No
drop counter exists: the full-queue handler leaves the entire program state
untouched (the alert-queue drop is only logged, the tick-queue drop is
silent). -/
theorem c8_queue_drop_newest (q : List ℕ) (x : ℕ) :
    (1000 ≤ q.length → tradeQueuePut q x = q)
    ∧ (q.length < 1000 → tradeQueuePut q x = q ++ [x])
    ∧ (10 ≤ q.length → alertQueuePut q x = q)
    ∧ (q.length < 10 → alertQueuePut q x = q ++ [x]) := by
  refine ⟨?_, ?_, ?_, ?_⟩
  · intro h
    simp [tradeQueuePut, putNowaitDrop, h]
  · intro h
    simp [tradeQueuePut, putNowaitDrop, not_le.2 h]
  · intro h
    simp [alertQueuePut, putNowaitDrop, h]
  · intro h
    simp [alertQueuePut, putNowaitDrop, not_le.2 h]

/-- Witness for C8: a full alert queue of 10 items and an empty trade queue. -/
theorem c8_queue_drop_newest_witness :
    alertQueuePut (List.replicate 10 0) 7 = List.replicate 10 0
    ∧ tradeQueuePut ([] : List ℕ) 5 = [] ++ [5] :=
  ⟨(c8_queue_drop_newest (List.replicate 10 0) 7).2.2.1 (by decide),
   (c8_queue_drop_newest [] 5).2.1 (by decide)⟩

/-- C8 counterexample: the claim says a drop is "recorded in a drop counter";
in the source there is no such counter — the `QueueFull` handler is `pass`
(tick queue) or a bare `print` (alert queue), so a full-queue send is the
identity on the program state: after sending to a full alert queue the
entire state reachable from the handler (the queue itself; there is no
counter variable) equals the state before, recording nothing. -/
theorem c8_counterexample :
    alertQueuePut (List.replicate 10 0) 7 = List.replicate 10 0
    ∧ tradeQueuePut (List.replicate 1000 0) 3 = List.replicate 1000 0 := by
  constructor
  · rw [alertQueuePut, putNowaitDrop, if_pos (by rw [List.length_replicate])]
  · rw [tradeQueuePut, putNowaitDrop, if_pos (by rw [List.length_replicate])]
